import Mathlib

/-!
Shallow embedding of the SRP (software rendering pipeline) core, translated
from the C sources, together with theorems settling the frozen claims.

Modelling conventions:
* C `double` values are modelled by exact rationals (`ℚ`).  All inputs used in
  concrete evaluations are chosen so that the control-flow decisions
  (sign tests, epsilon comparisons) are robust.
* C `size_t` is modelled by `ℕ`; where unsigned wraparound matters it is made
  explicit with `% 2^64` style arithmetic.
* `NaN` used as an "unset" sentinel (`fragDepth`) is modelled by `Option ℚ`.
* Varying (attribute) slabs addressed by pointer arithmetic are modelled as
  flat lists of rationals.
-/

namespace SRP

/-- Model of C `double`: exact rational arithmetic. -/
abbrev F := ℚ

/-- The `EPSILON` constant from `math/utils.h` (`1e-9`). -/
def EPSILON : F := 1 / 1000000000

/-- The `ROUGHLY_ZERO(x)` macro from `math/utils.h`: `fabs(x) <= EPSILON`. -/
def roughlyZero (x : F) : Bool := |x| ≤ EPSILON

/-- Vertex shader output (`SRPvsOutput`): clip-space position
`position[0..3]` and the varying slab `pOutputVariables`, modelled as a flat
list of the double elements stored there. -/
structure VsOut where
  x : F
  y : F
  z : F
  w : F
  vary : List F
deriving Repr, DecidableEq, Inhabited

/-- The clip planes, in the declaration order of `ClipPlane` in `clipping.c`
(`PLANE_LEFT, PLANE_RIGHT, PLANE_BOTTOM, PLANE_TOP, PLANE_NEAR, PLANE_FAR`). -/
inductive ClipPlane where
  | left | right | bottom | top | near | far
deriving Repr, DecidableEq, Inhabited

/-- The fixed plane order of the `for (int p = 0; p < PLANE_COUNT; p++)` loops. -/
def planeOrder : List ClipPlane :=
  [.left, .right, .bottom, .top, .near, .far]

/-- Signed distance of a vertex to a clip plane (`planeDistance` in
`clipping.c`). -/
def planeDistance (v : VsOut) (p : ClipPlane) : F :=
  match p with
  | .left   => v.x + v.w
  | .right  => v.w - v.x
  | .bottom => v.y + v.w
  | .top    => v.w - v.y
  | .near   => v.z + v.w
  | .far    => v.w - v.z

/-- Create a new vertex by interpolating between two existing ones
(`interpolateVertex` in `clipping.c`): each position component is
`a*(1-t) + b*t`, and the varyings are interpolated through
`interpolateAttributes(vertices, 2, {1-t, t}, NULL, 0., false, ...)`, whose
affine path computes the same `(1-t, t)` combination elementwise. -/
def interpolateVertex (a b : VsOut) (t : F) : VsOut where
  x := a.x * (1 - t) + b.x * t
  y := a.y * (1 - t) + b.y * t
  z := a.z * (1 - t) + b.z * t
  w := a.w * (1 - t) + b.w * t
  vary := List.zipWith (fun p q => p * (1 - t) + q * t) a.vary b.vary

/-- One Sutherland–Hodgman step (`clipAgainstPlane` in `clipping.c`).
`deepCopyVertex` only re-homes the varying slab into the arena, so at the
value level it is the identity.  Note the source treats a vertex as inside
when `planeDistance > 0` (strictly) and skips an edge entirely when
`ROUGHLY_ZERO(da - db)`. -/
def clipAgainstPlane (inPoly : List VsOut) (plane : ClipPlane) : List VsOut :=
  (List.range inPoly.length).foldl
    (fun out i =>
      let current := inPoly.getD i default
      let next := inPoly.getD ((i + 1) % inPoly.length) default
      let da := planeDistance current plane
      let db := planeDistance next plane
      let currInside : Bool := da > 0
      let nextInside : Bool := db > 0
      if currInside ∧ nextInside then
        out ++ [next]
      else if currInside ∨ nextInside then
        if roughlyZero (da - db) then
          out
        else
          let t := da / (da - db)
          let interp := interpolateVertex current next t
          if ¬(currInside = true) ∧ nextInside then out ++ [interp, next]
          else out ++ [interp]
      else
        out)
    []

/-- The successive polygon buffers of `clipTriangle` in `clipping.c`: the
initial 3-vertex polygon followed by the polygon after clipping against each
of the six planes in order.  (The source's early return on an empty polygon
agrees with continuing the fold, since clipping an empty polygon yields an
empty polygon.) -/
def clipTriangleSteps (v0 v1 v2 : VsOut) : List (List VsOut) :=
  List.scanl clipAgainstPlane [v0, v1, v2] planeOrder

/-- Result of `clipTriangle` in `clipping.c`: clip against the six planes,
then fan-triangulate the final polygon, emitting `(poly[0], poly[i],
poly[i+1])` for `i = 1 .. polyCount-2`. -/
def clipTriangle (v0 v1 v2 : VsOut) : List (VsOut × VsOut × VsOut) :=
  let poly := List.foldl clipAgainstPlane [v0, v1, v2] planeOrder
  (List.range (poly.length - 2)).map
    (fun i => (poly.getD 0 default, poly.getD (i + 1) default, poly.getD (i + 2) default))

/-- A triangle in the `z = 0, w = 1` plane that pokes out of the left, right,
bottom and top clip planes in a way that grows the polygon by one vertex at
each of those four Sutherland–Hodgman steps. -/
def obV0 : VsOut := ⟨-2, 13/10, 0, 1, []⟩

/-- Second vertex of the overflow triangle. -/
def obV1 : VsOut := ⟨0, -3/2, 0, 1, []⟩

/-- Third vertex of the overflow triangle. -/
def obV2 : VsOut := ⟨2, 1/5, 0, 1, []⟩

/-- C1: false of the code.  Clipping against the six planes in
Sutherland–Hodgman order can produce intermediate polygons of 7 (up to 9)
vertices, but `clipTriangle` in `clipping.c` uses `SRPvsOutput poly[6];
SRPvsOutput temp[6]` and `assert(polyCount <= 6)`, and `assembleTriangles`
in `primitive_assembly.c` uses `SRPTriangle clipped[4]` and allocates
`nUnclipped * 4` output slots.  For the concrete triangle
`(-2, 13/10, 0, 1), (0, -3/2, 0, 1), (2, 1/5, 0, 1)` the polygon grows to 7
vertices after the fourth (Top) plane — overrunning the 6-entry buffers and
firing the assertion — and fan-triangulation yields 5 triangles, overrunning
the 4-entry `clipped` array. -/
theorem clipTriangle_workspace_overflow :
    ((clipTriangleSteps obV0 obV1 obV2).map List.length = [3, 4, 5, 6, 7, 7, 7])
    ∧ (∃ n ∈ (clipTriangleSteps obV0 obV1 obV2).map List.length, 6 < n)
    ∧ (clipTriangle obV0 obV1 obV2).length = 5
    ∧ 4 < (clipTriangle obV0 obV1 obV2).length := by
  have h1 : clipAgainstPlane [obV0, obV1, obV2] .left =
      [⟨-1, -1/10, 0, 1, []⟩, ⟨0, -3/2, 0, 1, []⟩, ⟨2, 1/5, 0, 1, []⟩,
       ⟨-1, 41/40, 0, 1, []⟩] := by
    norm_num [clipAgainstPlane, planeDistance, roughlyZero, EPSILON, abs_le,
      interpolateVertex, List.range_succ, obV0, obV1, obV2]
  have h2 : clipAgainstPlane
      [⟨-1, -1/10, 0, 1, []⟩, ⟨0, -3/2, 0, 1, []⟩, ⟨2, 1/5, 0, 1, []⟩,
       ⟨-1, 41/40, 0, 1, []⟩] .right =
      [⟨0, -3/2, 0, 1, []⟩, ⟨1, -13/20, 0, 1, []⟩, ⟨1, 19/40, 0, 1, []⟩,
       ⟨-1, 41/40, 0, 1, []⟩, ⟨-1, -1/10, 0, 1, []⟩] := by
    norm_num [clipAgainstPlane, planeDistance, roughlyZero, EPSILON, abs_le,
      interpolateVertex, List.range_succ]
  have h3 : clipAgainstPlane
      [⟨0, -3/2, 0, 1, []⟩, ⟨1, -13/20, 0, 1, []⟩, ⟨1, 19/40, 0, 1, []⟩,
       ⟨-1, 41/40, 0, 1, []⟩, ⟨-1, -1/10, 0, 1, []⟩] .bottom =
      [⟨10/17, -1, 0, 1, []⟩, ⟨1, -13/20, 0, 1, []⟩, ⟨1, 19/40, 0, 1, []⟩,
       ⟨-1, 41/40, 0, 1, []⟩, ⟨-1, -1/10, 0, 1, []⟩, ⟨-5/14, -1, 0, 1, []⟩] := by
    norm_num [clipAgainstPlane, planeDistance, roughlyZero, EPSILON, abs_le,
      interpolateVertex, List.range_succ]
  have h4 : clipAgainstPlane
      [⟨10/17, -1, 0, 1, []⟩, ⟨1, -13/20, 0, 1, []⟩, ⟨1, 19/40, 0, 1, []⟩,
       ⟨-1, 41/40, 0, 1, []⟩, ⟨-1, -1/10, 0, 1, []⟩, ⟨-5/14, -1, 0, 1, []⟩] .top =
      [⟨1, -13/20, 0, 1, []⟩, ⟨1, 19/40, 0, 1, []⟩, ⟨-10/11, 1, 0, 1, []⟩,
       ⟨-1, 1, 0, 1, []⟩, ⟨-1, -1/10, 0, 1, []⟩, ⟨-5/14, -1, 0, 1, []⟩,
       ⟨10/17, -1, 0, 1, []⟩] := by
    norm_num [clipAgainstPlane, planeDistance, roughlyZero, EPSILON, abs_le,
      interpolateVertex, List.range_succ]
  have h5 : clipAgainstPlane
      [⟨1, -13/20, 0, 1, []⟩, ⟨1, 19/40, 0, 1, []⟩, ⟨-10/11, 1, 0, 1, []⟩,
       ⟨-1, 1, 0, 1, []⟩, ⟨-1, -1/10, 0, 1, []⟩, ⟨-5/14, -1, 0, 1, []⟩,
       ⟨10/17, -1, 0, 1, []⟩] .near =
      [⟨1, 19/40, 0, 1, []⟩, ⟨-10/11, 1, 0, 1, []⟩, ⟨-1, 1, 0, 1, []⟩,
       ⟨-1, -1/10, 0, 1, []⟩, ⟨-5/14, -1, 0, 1, []⟩, ⟨10/17, -1, 0, 1, []⟩,
       ⟨1, -13/20, 0, 1, []⟩] := by
    norm_num [clipAgainstPlane, planeDistance, roughlyZero, EPSILON, abs_le,
      interpolateVertex, List.range_succ]
  have h6 : clipAgainstPlane
      [⟨1, 19/40, 0, 1, []⟩, ⟨-10/11, 1, 0, 1, []⟩, ⟨-1, 1, 0, 1, []⟩,
       ⟨-1, -1/10, 0, 1, []⟩, ⟨-5/14, -1, 0, 1, []⟩, ⟨10/17, -1, 0, 1, []⟩,
       ⟨1, -13/20, 0, 1, []⟩] .far =
      [⟨-10/11, 1, 0, 1, []⟩, ⟨-1, 1, 0, 1, []⟩, ⟨-1, -1/10, 0, 1, []⟩,
       ⟨-5/14, -1, 0, 1, []⟩, ⟨10/17, -1, 0, 1, []⟩, ⟨1, -13/20, 0, 1, []⟩,
       ⟨1, 19/40, 0, 1, []⟩] := by
    norm_num [clipAgainstPlane, planeDistance, roughlyZero, EPSILON, abs_le,
      interpolateVertex, List.range_succ]
  refine ⟨?_, ?_, ?_, ?_⟩ <;>
    simp only [clipTriangleSteps, clipTriangle, planeOrder, List.scanl, List.foldl,
      h1, h2, h3, h4, h5, h6] <;>
    decide

/-! ### Topology (`topology.c`) -/

/-- The `SRPPrimitive` enumeration. -/
inductive Prim where
  | points | lines | lineStrip | lineLoop | triangles | triangleStrip | triangleFan
deriving Repr, DecidableEq, Inhabited

/-- Wrapping subtraction on C `size_t` values (modelled for operands below
`2^64`, as all `size_t` values are). -/
def usub64 (a b : ℕ) : ℕ := (a + 2 ^ 64 - b) % 2 ^ 64

/-- The `computeTriangleCount` function from `topology.c`.  The
`assert(false)` on non-triangle primitives is modelled by `none`. -/
def computeTriangleCount (vertexCount : ℕ) (prim : Prim) : Option ℕ :=
  match prim with
  | .triangles => some (vertexCount / 3)
  | .triangleStrip | .triangleFan => some (if 3 ≤ vertexCount then vertexCount - 2 else 0)
  | _ => none

/-- The `resolveTriangleTopology` function from `topology.c`. -/
def resolveTriangleTopology (base rawTriIdx : ℕ) (prim : Prim) : Option (ℕ × ℕ × ℕ) :=
  match prim with
  | .triangles =>
      some (base + rawTriIdx * 3, base + rawTriIdx * 3 + 1, base + rawTriIdx * 3 + 2)
  | .triangleStrip =>
      let odd : Bool := rawTriIdx % 2 == 1
      some (base + rawTriIdx + (if odd then 1 else 0),
            base + rawTriIdx + (if odd then 0 else 1),
            base + rawTriIdx + 2)
  | .triangleFan =>
      some (base, base + rawTriIdx + 1, base + rawTriIdx + 2)
  | _ => none

/-- The `computeLineCount` function from `topology.c`.  Note the
`vertexCount - 1` on the `LINE_STRIP` branch is `size_t` arithmetic, so for
`vertexCount = 0` it wraps around to `2^64 - 1`. -/
def computeLineCount (vertexCount : ℕ) (prim : Prim) : Option ℕ :=
  match prim with
  | .lines =>
      some (if vertexCount % 2 == 0 then vertexCount / 2 else (vertexCount - 1) / 2)
  | .lineStrip => some (if vertexCount ≠ 1 then usub64 vertexCount 1 else 0)
  | .lineLoop => some (if vertexCount ≠ 1 then vertexCount else 0)
  | _ => none

/-- The `resolveLineTopology` function from `topology.c`.  The `LINE_LOOP`
branch computes `(rawLineIdx + 1) % vertexCount`; the division by zero it
would perform for `vertexCount = 0` is unreachable because the line count is
then zero. -/
def resolveLineTopology (base rawLineIdx vertexCount : ℕ) (prim : Prim) : Option (ℕ × ℕ) :=
  match prim with
  | .lines => some (base + rawLineIdx * 2, base + rawLineIdx * 2 + 1)
  | .lineStrip => some (base + rawLineIdx, base + rawLineIdx + 1)
  | .lineLoop => some (base + rawLineIdx, base + (rawLineIdx + 1) % vertexCount)
  | _ => none

/-- C7 (amended): the topology tables of the spec hold as stated for every
vertex count for the triangle topologies, `LINES` and `LINE_LOOP`, and for
`LINE_STRIP` whenever `V ≥ 1`; at `V = 0` the `LINE_STRIP` count underflows
(see the counterexample), which is the only deviation.  The truncated natural
subtraction `V - 2` is exactly the table entry `max(0, V-2)`. -/
theorem topology_tables (V b k : ℕ) (hV : V < 2 ^ 64) :
    computeTriangleCount V .triangles = some (V / 3)
    ∧ resolveTriangleTopology b k .triangles =
        some (b + 3 * k, b + 3 * k + 1, b + 3 * k + 2)
    ∧ computeTriangleCount V .triangleStrip = some (V - 2)
    ∧ (k % 2 = 1 → resolveTriangleTopology b k .triangleStrip =
        some (b + k + 1, b + k, b + k + 2))
    ∧ (k % 2 = 0 → resolveTriangleTopology b k .triangleStrip =
        some (b + k, b + k + 1, b + k + 2))
    ∧ computeTriangleCount V .triangleFan = some (V - 2)
    ∧ resolveTriangleTopology b k .triangleFan = some (b, b + k + 1, b + k + 2)
    ∧ computeLineCount V .lines = some (V / 2)
    ∧ resolveLineTopology b k V .lines = some (b + 2 * k, b + 2 * k + 1)
    ∧ (1 ≤ V → computeLineCount V .lineStrip = some (V - 1))
    ∧ resolveLineTopology b k V .lineStrip = some (b + k, b + k + 1)
    ∧ computeLineCount V .lineLoop = some (if 1 < V then V else 0)
    ∧ (∀ cnt, computeLineCount V .lineLoop = some cnt → k < cnt →
        resolveLineTopology b k V .lineLoop = some (b + k, b + ((k + 1) % V))) := by
  refine ⟨rfl, ?_, ?_, ?_, ?_, ?_, ?_, ?_, ?_, ?_, ?_, ?_, ?_⟩
  · simp only [resolveTriangleTopology, Option.some.injEq, Prod.mk.injEq]
    omega
  · rcases Nat.lt_or_ge V 3 with h | h
    · interval_cases V <;> decide
    · simp [computeTriangleCount, h]
  · intro hk
    simp [resolveTriangleTopology, hk]
  · intro hk
    simp [resolveTriangleTopology, hk]
  · rcases Nat.lt_or_ge V 3 with h | h
    · interval_cases V <;> decide
    · simp [computeTriangleCount, h]
  · rfl
  · simp only [computeLineCount]
    rcases Nat.mod_two_eq_zero_or_one V with h | h
    · simp [h]
    · have hb : (V % 2 == 0) = false := by simp [h]
      simp only [hb, Bool.false_eq_true, if_false, Option.some.injEq]
      omega
  · simp only [resolveLineTopology, Option.some.injEq, Prod.mk.injEq]
    omega
  · intro hV1
    by_cases h1 : V = 1
    · subst h1
      decide
    · simp only [computeLineCount, usub64]
      rw [if_pos h1]
      exact congrArg some (by omega)
  · rfl
  · by_cases h1 : V = 1
    · simp [computeLineCount, h1]
    · by_cases h0 : V = 0
      · subst h0
        decide
      · have hgt : 1 < V := by omega
        simp [computeLineCount, h1, hgt]
  · intro cnt hcnt hk
    rfl

/-- C7 counterexample: at `V = 0` the code's `LINE_STRIP` count is the
wrapped-around `size_t` value `2^64 - 1`, not the `max(0, V-1) = 0` of the
spec's table. -/
theorem computeLineCount_lineStrip_underflow :
    computeLineCount 0 .lineStrip = some (2 ^ 64 - 1)
    ∧ computeLineCount 0 .lineStrip ≠ some 0 := by
  constructor
  · simp only [computeLineCount, usub64]
    norm_num
  · simp only [computeLineCount, usub64]
    norm_num

/-- C7 witness: the amended table theorem applied at `V = 5, b = 2, k = 3`. -/
theorem topology_tables_witness :
    (5 : ℕ) < 2 ^ 64
    ∧ (computeLineCount 5 .lineStrip = some (5 - 1)
        ∧ resolveTriangleTopology 2 3 .triangleStrip = some (2 + 3 + 1, 2 + 3, 2 + 3 + 2)) :=
  ⟨by norm_num,
   ⟨(topology_tables 5 2 3 (by norm_num)).2.2.2.2.2.2.2.2.2.1 (by norm_num),
    (topology_tables 5 2 3 (by norm_num)).2.2.2.1 (by norm_num)⟩⟩

/-! ### Arena allocator (`arena.c`) -/

/-- One arena page (`SRPArenaBlock`): its byte capacity and the `used`
offset.  The `data` payload is not modelled; allocations are identified by
their page and byte offset. -/
structure ArenaBlock where
  capacity : ℕ
  used : ℕ
deriving Repr, DecidableEq, Inhabited

/-- The arena (`SRPArena`): the page size, the chain of full pages in order
(`head` first), and the current page (the last page of the chain). -/
structure Arena where
  pageSize : ℕ
  earlier : List ArenaBlock
  current : ArenaBlock
deriving Repr, DecidableEq, Inhabited

/-- The macro `ALIGN_8_UP(x) = (x + 7) & ~7`, i.e. rounding up to a multiple
of 8. -/
def align8 (x : ℕ) : ℕ := (x + 7) / 8 * 8

/-- The doubling loop of `neededBlockSize` in `arena.c`: starting from the
page size, double until the requested size fits.  (The C loop does not
terminate for a zero page size; arenas always have `pageSize ≥ 1 MiB`, and
the guard `0 < size` makes the model total.) -/
def blockGrow (size requested : ℕ) : ℕ :=
  if h : 0 < size ∧ size < requested then blockGrow (2 * size) requested else size
termination_by requested - size
decreasing_by omega

/-- The `neededBlockSize` function from `arena.c`. -/
def neededBlockSize (pageSize requested : ℕ) : ℕ := blockGrow pageSize requested

/-- The `arenaAlloc` function from `arena.c`.  Returns the updated arena and
the allocated location as `(page index, byte offset)`; a zero-size request
returns no location (`NULL`). -/
def arenaAlloc (a : Arena) (size : ℕ) : Arena × Option (ℕ × ℕ) :=
  if size = 0 then (a, none)
  else
    let alignedUsed := align8 a.current.used
    if a.current.capacity < alignedUsed + size then
      let cap := neededBlockSize a.pageSize size
      ({ a with earlier := a.earlier ++ [a.current], current := ⟨cap, size⟩ },
        some (a.earlier.length + 1, 0))
    else
      ({ a with current := ⟨a.current.capacity, alignedUsed + size⟩ },
        some (a.earlier.length, alignedUsed))

/-- Total `used` bytes over all pages, as summed by `arenaReset`. -/
def arenaSumUsed (a : Arena) : ℕ :=
  (a.earlier.map ArenaBlock.used).sum + a.current.used

/-- The first (`head`) page of an arena. -/
def arenaHead (a : Arena) : ArenaBlock := a.earlier.headD a.current

/-- The `arenaReset` function from `arena.c`: free every page beyond the
first; if the total usage exceeded the page size, grow the page size and
replace the head page, otherwise zero the head page's offset. -/
def arenaReset (a : Arena) : Arena :=
  let sumUsed := arenaSumUsed a
  if a.pageSize < sumUsed then
    let ps := neededBlockSize a.pageSize sumUsed
    ⟨ps, [], ⟨ps, 0⟩⟩
  else
    ⟨a.pageSize, [], ⟨(arenaHead a).capacity, 0⟩⟩

/-- Characterisation of the doubling loop: for a positive start value it
returns the smallest `size * 2^k` that is at least `max size requested`. -/
theorem blockGrow_spec (size requested : ℕ) (hp : 0 < size) :
    ∃ k, blockGrow size requested = size * 2 ^ k
      ∧ size ≤ size * 2 ^ k ∧ requested ≤ size * 2 ^ k
      ∧ ∀ j, requested ≤ size * 2 ^ j → size * 2 ^ k ≤ size * 2 ^ j := by
  induction size, requested using blockGrow.induct with
  | case1 size requested h ih =>
    rw [blockGrow, dif_pos h]
    obtain ⟨k, hgrow, hge, hreq, hmin⟩ := ih (by omega)
    refine ⟨k + 1, ?_, ?_, ?_, ?_⟩
    · rw [hgrow]; ring
    · have h1 : (1 : ℕ) ≤ 2 ^ (k + 1) := Nat.one_le_two_pow
      calc size = size * 1 := by ring
        _ ≤ size * 2 ^ (k + 1) := Nat.mul_le_mul_left size h1
    · calc requested ≤ 2 * size * 2 ^ k := hreq
        _ = size * 2 ^ (k + 1) := by ring
    · intro j hj
      have hj1 : 1 ≤ j := by
        by_contra hc
        have : j = 0 := by omega
        subst this
        simp only [pow_zero, mul_one] at hj
        omega
      have : requested ≤ 2 * size * 2 ^ (j - 1) := by
        have : 2 * size * 2 ^ (j - 1) = size * 2 ^ j := by
          have : j - 1 + 1 = j := by omega
          calc 2 * size * 2 ^ (j - 1) = size * (2 ^ (j - 1) * 2) := by ring
            _ = size * 2 ^ (j - 1 + 1) := by rw [pow_succ]
            _ = size * 2 ^ j := by rw [‹j - 1 + 1 = j›]
        omega
      have hm := hmin (j - 1) this
      have heq : 2 * size * 2 ^ (j - 1) = size * 2 ^ j := by
        have hj2 : j - 1 + 1 = j := by omega
        calc 2 * size * 2 ^ (j - 1) = size * (2 ^ (j - 1) * 2) := by ring
          _ = size * 2 ^ (j - 1 + 1) := by rw [pow_succ]
          _ = size * 2 ^ j := by rw [hj2]
      have heq1 : 2 * size * 2 ^ k = size * 2 ^ (k + 1) := by ring
      omega
  | case2 size requested h =>
    rw [blockGrow, dif_neg h]
    refine ⟨0, by ring, by simp, by omega, ?_⟩
    intro j _
    simp only [pow_zero, mul_one]
    exact Nat.le_mul_of_pos_right size (Nat.pos_pow_of_pos j (by norm_num))

/-- The C8 contract of `arenaAlloc` and `arenaReset`, phrased over the model:
in-place 8-aligned bump when the request fits, fresh page with the smallest
power-of-two page size `≥ max(pageSize, n)` when it does not, and reset to a
single zero-offset page that is grown to fit if the previous total usage
exceeded the page size. -/
def arenaContract (a : Arena) (n : ℕ) : Prop :=
  (align8 a.current.used + n ≤ a.current.capacity →
      arenaAlloc a n =
        ({ a with current := ⟨a.current.capacity, align8 a.current.used + n⟩ },
          some (a.earlier.length, align8 a.current.used))
      ∧ align8 a.current.used % 8 = 0)
  ∧ (a.current.capacity < align8 a.current.used + n →
      (arenaAlloc a n).1.current.used = n
      ∧ (arenaAlloc a n).2 = some (a.earlier.length + 1, 0)
      ∧ ∃ k, (arenaAlloc a n).1.current.capacity = a.pageSize * 2 ^ k
          ∧ max a.pageSize n ≤ a.pageSize * 2 ^ k
          ∧ ∀ j, max a.pageSize n ≤ a.pageSize * 2 ^ j →
              a.pageSize * 2 ^ k ≤ a.pageSize * 2 ^ j)
  ∧ ((arenaReset a).earlier = [] ∧ (arenaReset a).current.used = 0)
  ∧ (arenaSumUsed a ≤ a.pageSize →
      (arenaReset a).current.capacity = (arenaHead a).capacity
      ∧ (arenaReset a).pageSize = a.pageSize)
  ∧ (a.pageSize < arenaSumUsed a →
      ∃ k, (arenaReset a).current.capacity = a.pageSize * 2 ^ k
        ∧ arenaSumUsed a ≤ a.pageSize * 2 ^ k
        ∧ ∀ j, arenaSumUsed a ≤ a.pageSize * 2 ^ j →
            a.pageSize * 2 ^ k ≤ a.pageSize * 2 ^ j)

/-- C8: confirmed.  `arenaAlloc` with `n > 0` bumps the current page's offset
after 8-byte alignment and returns an 8-aligned offset; when the current page
cannot fit, the new page's capacity is the smallest power-of-two page size at
least `max(pageSize, n)`; `arenaReset` leaves exactly one page with offset 0,
grown to fit when the prior total usage exceeded the page size. -/
theorem arenaAlloc_arenaReset_contract (a : Arena) (n : ℕ)
    (hp : 0 < a.pageSize) (hn : 0 < n) : arenaContract a n := by
  refine ⟨?_, ?_, ?_, ?_, ?_⟩
  · intro hfit
    constructor
    · rw [arenaAlloc, if_neg (by omega)]
      simp only [if_neg (by omega : ¬ a.current.capacity < align8 a.current.used + n)]
    · simp [align8, Nat.mul_mod_left]
  · intro hnofit
    rw [arenaAlloc, if_neg (by omega)]
    simp only [if_pos hnofit]
    refine ⟨by trivial, by trivial, ?_⟩
    obtain ⟨k, hgrow, hge, hreq, hmin⟩ := blockGrow_spec a.pageSize n hp
    exact ⟨k, by simpa [neededBlockSize] using hgrow, by omega, fun j hj => hmin j (by omega)⟩
  · by_cases hcmp : a.pageSize < arenaSumUsed a
    · rw [arenaReset]
      simp [hcmp]
    · rw [arenaReset]
      simp [hcmp]
  · intro hle
    rw [arenaReset]
    simp only [if_neg (by omega : ¬ a.pageSize < arenaSumUsed a)]
    exact ⟨by trivial, by trivial⟩
  · intro hgt
    rw [arenaReset]
    simp only [if_pos hgt]
    obtain ⟨k, hgrow, hge, hreq, hmin⟩ := blockGrow_spec a.pageSize (arenaSumUsed a) hp
    exact ⟨k, by simpa [neededBlockSize] using hgrow, hreq, hmin⟩

/-- C8 witness: the contract applied to a concrete arena with page size 1024,
an in-use current page, and an allocation of 100 bytes. -/
theorem arenaAlloc_arenaReset_contract_witness :
    0 < (Arena.mk 1024 [] ⟨1024, 10⟩).pageSize ∧ 0 < 100
    ∧ arenaContract (Arena.mk 1024 [] ⟨1024, 10⟩) 100 :=
  ⟨by norm_num, by norm_num,
    arenaAlloc_arenaReset_contract (Arena.mk 1024 [] ⟨1024, 10⟩) 100
      (by norm_num) (by norm_num)⟩

/-! ### Line clipping and the line pipeline (`clipping.c`, `line.c`,
`primitive_assembly.c`) -/

/-- Loop state of the Liang–Barsky loop in `clipLine`. -/
structure LBState where
  t0 : F
  t1 : F
  clipped : Bool
deriving Repr, DecidableEq, Inhabited

/-- One plane iteration of `clipLine` in `clipping.c`; the source's early
`return true` is modelled by latching the `clipped` flag. -/
def clipLineStep (a b : VsOut) (s : LBState) (p : ClipPlane) : LBState :=
  if s.clipped then s
  else
    let da := planeDistance a p
    let db := planeDistance b p
    if da < 0 ∧ db < 0 then { s with clipped := true }
    else if da < 0 ∨ db < 0 then
      if roughlyZero (da - db) then s
      else
        let t := da / (da - db)
        let s1 := if da < 0 then { s with t0 := max s.t0 t } else { s with t1 := min s.t1 t }
        if s1.t1 < s1.t0 then { s1 with clipped := true } else s1
    else s

/-- The `clipLine` function from `clipping.c` (Liang–Barsky): `none` when the
line is fully clipped, otherwise the two (possibly replaced) endpoints. -/
def clipLine (a b : VsOut) : Option (VsOut × VsOut) :=
  let s := planeOrder.foldl (clipLineStep a b) ⟨0, 1, false⟩
  if s.clipped then none
  else
    let a1 := if 0 < s.t0 then interpolateVertex a b s.t0 else a
    let b1 := if s.t1 < 1 then interpolateVertex a b s.t1 else b
    some (a1, b1)

/-- The `framebufferNDCToScreenSpace` map from `framebuffer.c` for a
`width × height` framebuffer. -/
def framebufferNDCToScreenSpace (W H : F) (ndc : F × F × F) : F × F × F :=
  (((W - 1) / 2) * (ndc.1 + 1), -((H - 1) / 2) * (ndc.2.1 - 1), ndc.2.2)

/-- The `setupLine` function from `raster/line.c`: map both endpoints of the
line to screen space. -/
def setupLine (W H : F) (a b : VsOut) : (F × F × F) × (F × F × F) :=
  (framebufferNDCToScreenSpace W H (a.x, a.y, a.z),
   framebufferNDCToScreenSpace W H (b.x, b.y, b.z))

/-- C `round()`: round half away from zero. -/
def roundC (x : F) : ℤ := if 0 ≤ x then ⌊x + 1/2⌋ else -⌊-x + 1/2⌋

/-- The pixel positions at which `rasterizeLine` in `raster/line.c` emits
fragments: a DDA with `steps = max(1, ceil(max(|dx|, |dy|)))` and `steps + 1`
iterations.  The source accumulates `x += xInc`; with exact arithmetic this
equals `ss0 + i * inc`. -/
def rasterizeLineFragments (ss0 ss1 : F × F × F) : List (ℤ × ℤ) :=
  let dx := ss1.1 - ss0.1
  let dy := ss1.2.1 - ss0.2.1
  let stepsRaw : ℤ := ⌈max |dx| |dy|⌉
  let steps : ℤ := if stepsRaw = 0 then 1 else stepsRaw
  let xInc := dx / (steps : F)
  let yInc := dy / (steps : F)
  (List.range (steps.toNat + 1)).map
    (fun i => (roundC (ss0.1 + i * xInc), roundC (ss0.2.1 + i * yInc)))

/-- The fragments emitted for one assembled line: `assembleOneLine` in
`primitive_assembly.c` fetches the two vertices, calls `setupLine`, and
`drawLines` then calls `rasterizeLine`.  No function on this path invokes
`clipLine`. -/
def linePipelineFragments (W H : F) (a b : VsOut) : List (ℤ × ℤ) :=
  let ss := setupLine W H a b
  rasterizeLineFragments ss.1 ss.2

/-- First endpoint of a line lying entirely beyond the far plane. -/
def fcA : VsOut := ⟨0, 0, 2, 1, []⟩

/-- Second endpoint of a line lying entirely beyond the far plane. -/
def fcB : VsOut := ⟨0, 0, 3, 1, []⟩

/-- C2: false of the code.  `clipLine` correctly reports the line
`(0,0,2,1)–(0,0,3,1)` — both endpoints have negative distance to the far
plane — as fully clipped, but no caller ever invokes `clipLine`: the line
pipeline (`assembleLines` → `setupLine` → `rasterizeLine`) rasterizes the
line unclipped and emits two fragments on a 4×4 framebuffer. -/
theorem clipLine_fullyClipped_but_line_pipeline_emits :
    (planeDistance fcA .far < 0 ∧ planeDistance fcB .far < 0)
    ∧ clipLine fcA fcB = none
    ∧ linePipelineFragments 4 4 fcA fcB = [(2, 2), (2, 2)] := by
  refine ⟨⟨by norm_num [planeDistance, fcA, fcB], by norm_num [planeDistance, fcA, fcB]⟩, ?_, ?_⟩
  · norm_num [clipLine, clipLineStep, planeOrder, planeDistance, roughlyZero, EPSILON,
      abs_le, fcA, fcB]
  · norm_num [linePipelineFragments, setupLine, framebufferNDCToScreenSpace,
      rasterizeLineFragments, roundC, fcA, fcB, List.range_succ]

/-! ### Fragment emission and the framebuffer (`fragment.c`, `framebuffer.c`) -/

/-- The framebuffer's two planes (`SRPFramebuffer`): row-major color and
depth, modelled as functions of the pixel coordinate. -/
structure Framebuffer where
  depth : ℕ × ℕ → F
  color : ℕ × ℕ → ℕ

/-- The `framebufferDepthTest` function from `framebuffer.c`:
`depth > stored_depth(x, y)` (strictly greater passes). -/
def framebufferDepthTest (fb : Framebuffer) (x y : ℕ) (depth : F) : Bool :=
  decide (fb.depth (x, y) < depth)

/-- The `framebufferDrawPixel` function from `framebuffer.c`: unconditionally
write both planes at `(x, y)`. -/
def framebufferDrawPixel (fb : Framebuffer) (x y : ℕ) (depth : F) (color : ℕ) :
    Framebuffer where
  depth := fun p => if p = (x, y) then depth else fb.depth p
  color := fun p => if p = (x, y) then color else fb.color p

/-- The assertion `assert(depth >= -1 && depth < 1)` inside
`framebufferDrawPixel`. -/
def framebufferDrawPixelAssert (depth : F) : Prop := -1 ≤ depth ∧ depth < 1

/-- The framebuffer produced by `srpFramebufferClear`: every color word 0 and
every depth `-1`. -/
def clearedFramebuffer : Framebuffer where
  depth := fun _ => -1
  color := fun _ => 0

/-- Output of the user's fragment shader (`SRPfsOutput`): four color
channels and `fragDepth`, whose `NaN` default ("not overridden") is modelled
as `none`. -/
structure FsOutput where
  r : F
  g : F
  b : F
  a : F
  fragDepth : Option F

/-- One color channel of `emitFragment`: `CLAMP(0, 255, c * 255)` followed by
the truncating conversion to `uint8_t`. -/
def clampChannel (c : F) : ℕ :=
  (⌊if c * 255 < 0 then 0 else if 255 < c * 255 then 255 else c * 255⌋).toNat

/-- The `SRP_COLOR_TO_UINT32_T` packing: RGBA8888 with red in the most
significant byte. -/
def colorToUInt32 (r g b a : F) : ℕ :=
  clampChannel r * 2 ^ 24 + clampChannel g * 2 ^ 16 + clampChannel b * 2 ^ 8 + clampChannel a

/-- The depth computed by `emitFragment` in `fragment.c`:
`isnan(fragDepth) ? fragCoord[2] : fragDepth`. -/
def resolvedDepth (fsOut : FsOutput) (fragZ : F) : F :=
  match fsOut.fragDepth with
  | none => fragZ
  | some d => d

/-- The `emitFragment` function from `fragment.c`, after the fragment shader
has produced `fsOut` for the fragment at `(x, y)` with interpolated
`fragCoord[2] = fragZ`: depth-test, and on pass write color and depth. -/
def emitFragment (fb : Framebuffer) (x y : ℕ) (fsOut : FsOutput) (fragZ : F) :
    Framebuffer :=
  let depth := resolvedDepth fsOut fragZ
  if framebufferDepthTest fb x y depth then
    framebufferDrawPixel fb x y depth (colorToUInt32 fsOut.r fsOut.g fsOut.b fsOut.a)
  else fb

/-- The stored depth at a pixel never decreases under `emitFragment`. -/
theorem emitFragment_depth_le (fb : Framebuffer) (x y : ℕ) (fsOut : FsOutput)
    (fragZ : F) (p : ℕ × ℕ) :
    fb.depth p ≤ (emitFragment fb x y fsOut fragZ).depth p := by
  rw [emitFragment]
  by_cases h : framebufferDepthTest fb x y (resolvedDepth fsOut fragZ) = true
  · rw [if_pos h]
    rw [framebufferDepthTest, decide_eq_true_iff] at h
    simp only [framebufferDrawPixel]
    by_cases hp : p = (x, y)
    · rw [if_pos hp, hp]
      exact le_of_lt h
    · rw [if_neg hp]
  · rw [if_neg h]

/-- The C3 contract of `emitFragment`, for a fragment at `(x, y)`. -/
def emitFragmentContract (fb : Framebuffer) (x y : ℕ) (fsOut : FsOutput)
    (fragZ : F) : Prop :=
  (fsOut.fragDepth = none → resolvedDepth fsOut fragZ = fragZ)
  ∧ (∀ d, fsOut.fragDepth = some d → resolvedDepth fsOut fragZ = d)
  ∧ (fb.depth (x, y) < resolvedDepth fsOut fragZ →
      (emitFragment fb x y fsOut fragZ).depth (x, y) = resolvedDepth fsOut fragZ
      ∧ (emitFragment fb x y fsOut fragZ).color (x, y) =
          colorToUInt32 fsOut.r fsOut.g fsOut.b fsOut.a)
  ∧ (resolvedDepth fsOut fragZ ≤ fb.depth (x, y) →
      emitFragment fb x y fsOut fragZ = fb)
  ∧ (emitFragment fb x y fsOut fragZ = fb
      ∨ fb.depth (x, y) < (emitFragment fb x y fsOut fragZ).depth (x, y))
  ∧ (∀ frags : List (FsOutput × F),
      fb.depth (x, y) ≤
        (frags.foldl (fun f oz => emitFragment f x y oz.1 oz.2) fb).depth (x, y))

/-- C3: confirmed.  `emitFragment` uses `fragCoord.z` exactly when the shader
left `fragDepth` unset (`NaN`), writes both planes at `(x, y)` iff the depth
is strictly greater than the stored depth, leaves the framebuffer unchanged
on discard (equal depth discards), and the stored depth at a fixed pixel is
non-decreasing over any fragment sequence, increasing strictly at each
write. -/
theorem emitFragment_contract (fb : Framebuffer) (x y : ℕ) (fsOut : FsOutput)
    (fragZ : F) : emitFragmentContract fb x y fsOut fragZ := by
  refine ⟨?_, ?_, ?_, ?_, ?_, ?_⟩
  · intro h
    rw [resolvedDepth, h]
  · intro d h
    rw [resolvedDepth, h]
  · intro h
    rw [emitFragment, if_pos (by rw [framebufferDepthTest, decide_eq_true_iff]; exact h)]
    constructor
    · simp [framebufferDrawPixel]
    · simp [framebufferDrawPixel]
  · intro h
    rw [emitFragment,
      if_neg (by rw [framebufferDepthTest, decide_eq_true_iff]; exact not_lt.mpr h)]
  · by_cases h : framebufferDepthTest fb x y (resolvedDepth fsOut fragZ) = true
    · right
      rw [emitFragment, if_pos h]
      rw [framebufferDepthTest, decide_eq_true_iff] at h
      simpa [framebufferDrawPixel] using h
    · left
      rw [emitFragment, if_neg h]
  · intro frags
    induction frags generalizing fb with
    | nil => exact le_refl _
    | cons hd tl ih =>
      simp only [List.foldl_cons]
      exact le_trans (emitFragment_depth_le fb x y hd.1 hd.2 (x, y)) (ih _)

/-- C3 witness: the contract applied to the cleared framebuffer and a
fragment with unset `fragDepth` and interpolated depth `1/2`, discharging the
pass-branch hypothesis. -/
theorem emitFragment_contract_witness :
    (clearedFramebuffer.depth (0, 0) < resolvedDepth ⟨1, 0, 0, 1, none⟩ (1/2))
    ∧ (emitFragment clearedFramebuffer 0 0 ⟨1, 0, 0, 1, none⟩ (1/2)).depth (0, 0) =
        resolvedDepth ⟨1, 0, 0, 1, none⟩ (1/2) :=
  ⟨by norm_num [clearedFramebuffer, resolvedDepth],
   ((emitFragment_contract clearedFramebuffer 0 0 ⟨1, 0, 0, 1, none⟩ (1/2)).2.2.1
      (by norm_num [clearedFramebuffer, resolvedDepth])).1⟩

/-- C10 (amended): a fragment passing the depth test against a stored depth
`≥ -1` has depth strictly greater than `-1`, so the lower half of the
`framebufferDrawPixel` assertion always holds; the upper half `depth < 1`
holds only when the resolved depth is below 1 — a shader-supplied
`fragDepth = 1` passes the test and violates it (see the counterexample). -/
theorem depthTest_pass_assert_lower_bound (fb : Framebuffer) (x y : ℕ)
    (fsOut : FsOutput) (fragZ : F) (hstore : -1 ≤ fb.depth (x, y))
    (hpass : framebufferDepthTest fb x y (resolvedDepth fsOut fragZ) = true) :
    -1 < resolvedDepth fsOut fragZ
    ∧ (resolvedDepth fsOut fragZ < 1 →
        framebufferDrawPixelAssert (resolvedDepth fsOut fragZ)) := by
  rw [framebufferDepthTest, decide_eq_true_iff] at hpass
  constructor
  · exact lt_of_le_of_lt hstore hpass
  · intro h1
    exact ⟨le_of_lt (lt_of_le_of_lt hstore hpass), h1⟩

/-- C10 counterexample: on a cleared framebuffer, a fragment whose shader
sets `fragDepth` to exactly 1 passes the strict depth test, is handed to
`framebufferDrawPixel` with depth 1, and `1 ∉ [-1, 1)` — the internal
assertion `depth >= -1 && depth < 1` fails. -/
theorem fragDepth_one_passes_but_assert_fails :
    framebufferDepthTest clearedFramebuffer 0 0
        (resolvedDepth ⟨0, 0, 0, 1, some 1⟩ (1/2)) = true
    ∧ ¬ framebufferDrawPixelAssert (resolvedDepth ⟨0, 0, 0, 1, some 1⟩ (1/2))
    ∧ (emitFragment clearedFramebuffer 0 0 ⟨0, 0, 0, 1, some 1⟩ (1/2)).depth (0, 0) = 1 := by
  refine ⟨?_, ?_, ?_⟩
  · norm_num [framebufferDepthTest, clearedFramebuffer, resolvedDepth]
  · norm_num [framebufferDrawPixelAssert, resolvedDepth]
  · norm_num [emitFragment, framebufferDepthTest, clearedFramebuffer, resolvedDepth,
      framebufferDrawPixel]

/-- C10 witness: the lower-bound theorem applied on the cleared framebuffer
to a fragment of depth `1/2`. -/
theorem depthTest_pass_assert_lower_bound_witness :
    (-1 ≤ clearedFramebuffer.depth (0, 0)
      ∧ framebufferDepthTest clearedFramebuffer 0 0
          (resolvedDepth ⟨0, 0, 0, 1, some (1/2)⟩ 0) = true)
    ∧ -1 < resolvedDepth ⟨0, 0, 0, 1, some (1/2)⟩ 0 :=
  ⟨⟨by norm_num [clearedFramebuffer],
    by norm_num [framebufferDepthTest, clearedFramebuffer, resolvedDepth]⟩,
   (depthTest_pass_assert_lower_bound clearedFramebuffer 0 0 ⟨0, 0, 0, 1, some (1/2)⟩ 0
      (by norm_num [clearedFramebuffer])
      (by norm_num [framebufferDepthTest, clearedFramebuffer, resolvedDepth])).1⟩

/-! ### Post-VS vertex cache (`vertex_processing.c`, `primitive_assembly.c`) -/

/-- The post-VS cache (`VertexCache`): entry validity and cached data, keyed
directly by vertex index (the source indexes `entries[vertexIndex -
baseVertex]`, a bijection on the in-range indices), plus the instrumented
list of `processVertex` calls — each of which invokes the user's vertex
shader exactly once.  `allocateVertexCache` zero-initialises the entries
(`ARENA_CALLOC`), so every `valid` flag starts `false`. -/
structure VertexCache where
  valid : ℕ → Bool
  data : ℕ → VsOut
  calls : List ℕ

/-- The freshly calloc-ed cache at the start of a draw. -/
def freshVertexCache : VertexCache where
  valid := fun _ => false
  data := fun _ => default
  calls := []

/-- The `vertexCacheFetch` function from `vertex_processing.c`: return the
cached entry if valid, otherwise run the vertex shader (`processVertex`),
store the result and mark the entry valid.  The user's shader closure is the
opaque `shader` parameter. -/
def vertexCacheFetch (shader : ℕ → VsOut) (cache : VertexCache) (vertexIndex : ℕ) :
    VsOut × VertexCache :=
  if cache.valid vertexIndex then (cache.data vertexIndex, cache)
  else
    let out := shader vertexIndex
    (out,
      { valid := fun u => if u = vertexIndex then true else cache.valid u
        data := fun u => if u = vertexIndex then out else cache.data u
        calls := cache.calls ++ [vertexIndex] })

/-- Fetch every vertex index of a draw's stream through the cache, as the
triangle and line assembly loops do. -/
def runFetches (shader : ℕ → VsOut) (cache : VertexCache) (stream : List ℕ) :
    VertexCache :=
  stream.foldl (fun c vi => (vertexCacheFetch shader c vi).2) cache

/-- The `assemblePoints` function from `primitive_assembly.c` at the vertex
processing level: it calls `processVertex` once per stream element — with no
cache — so the second component (the shader invocations) is the stream
itself. -/
def assemblePoints (shader : ℕ → VsOut) (stream : List ℕ) : List VsOut × List ℕ :=
  (stream.map shader, stream)

/-- After running a stream through the cache, an entry is valid iff it was
valid before or its index occurs in the stream. -/
theorem runFetches_valid (shader : ℕ → VsOut) (stream : List ℕ)
    (cache : VertexCache) (vi : ℕ) :
    (runFetches shader cache stream).valid vi
      = (cache.valid vi || decide (vi ∈ stream)) := by
  induction stream generalizing cache with
  | nil => simp [runFetches]
  | cons hd tl ih =>
    simp only [runFetches, List.foldl_cons] at *
    rw [ih]
    rw [vertexCacheFetch]
    by_cases hv : cache.valid hd = true
    · rw [if_pos hv]
      by_cases he : vi = hd
      · subst he
        simp [hv]
      · simp [he]
    · rw [if_neg hv]
      by_cases he : vi = hd
      · subst he
        simp
      · simp [he]

/-- The number of shader invocations for an index grows by one exactly when
the entry was invalid and the index occurs in the stream. -/
theorem runFetches_calls_count (shader : ℕ → VsOut) (stream : List ℕ)
    (cache : VertexCache) (vi : ℕ) :
    (runFetches shader cache stream).calls.count vi
      = cache.calls.count vi
        + (if cache.valid vi = false ∧ vi ∈ stream then 1 else 0) := by
  induction stream generalizing cache with
  | nil => simp [runFetches]
  | cons hd tl ih =>
    simp only [runFetches, List.foldl_cons] at *
    rw [ih]
    rw [vertexCacheFetch]
    by_cases hv : cache.valid hd = true
    · rw [if_pos hv]
      by_cases he : vi = hd
      · subst he
        simp [hv]
      · simp [List.mem_cons, he]
    · rw [if_neg hv]
      have hv0 : cache.valid hd = false := by simpa using hv
      by_cases he : vi = hd
      · subst he
        simp [List.count_append, hv0]
      · simp [List.count_append, List.count_cons, List.mem_cons, he]

/-- Valid entries always hold the shader's output for their index. -/
theorem runFetches_data (shader : ℕ → VsOut) (stream : List ℕ)
    (cache : VertexCache) (vi : ℕ)
    (hgood : ∀ u, cache.valid u = true → cache.data u = shader u)
    (hv : (runFetches shader cache stream).valid vi = true) :
    (runFetches shader cache stream).data vi = shader vi := by
  induction stream generalizing cache with
  | nil => exact hgood vi hv
  | cons hd tl ih =>
    simp only [runFetches, List.foldl_cons] at *
    refine ih _ ?_ hv
    intro u hu
    rw [vertexCacheFetch] at hu ⊢
    by_cases hvh : cache.valid hd = true
    · rw [if_pos hvh] at hu ⊢
      exact hgood u hu
    · rw [if_neg hvh] at hu ⊢
      by_cases he : u = hd
      · subst he
        simp
      · simp only [if_neg he] at hu ⊢
        exact hgood u hu

/-- C4 (amended): for triangle and line draws — which fetch every vertex
through `vertexCacheFetch` — an index referenced anywhere in the stream
causes exactly one vertex shader invocation, and any further fetch returns
the cached shader output.  Point draws (`assemblePoints`) bypass the cache
and invoke the shader once per stream element, i.e. `count vi stream` times
rather than once. -/
theorem vertexCache_invokes_once_points_per_element (shader : ℕ → VsOut)
    (stream : List ℕ) (vi : ℕ) (hmem : vi ∈ stream) :
    (runFetches shader freshVertexCache stream).calls.count vi = 1
    ∧ (vertexCacheFetch shader (runFetches shader freshVertexCache stream) vi).1
        = shader vi
    ∧ (assemblePoints shader stream).2.count vi = stream.count vi := by
  have hvalid := runFetches_valid shader stream freshVertexCache vi
  refine ⟨?_, ?_, rfl⟩
  · rw [runFetches_calls_count]
    simp [freshVertexCache, hmem]
  · have hv : (runFetches shader freshVertexCache stream).valid vi = true := by
      rw [hvalid]
      simp [freshVertexCache, hmem]
    rw [vertexCacheFetch, if_pos hv]
    exact runFetches_data shader stream freshVertexCache vi
      (by intro u hu; simp [freshVertexCache] at hu) hv

/-- C4 counterexample: a `POINTS` draw whose index stream references vertex 5
twice invokes the vertex shader twice for it (no cache), while the cached
triangle/line path invokes it once — so the claim's "exactly once for every
draw call (triangles, lines, or points)" fails for points. -/
theorem assemblePoints_shader_invoked_twice :
    (assemblePoints (fun _ => (default : VsOut)) [5, 5]).2.count 5 = 2
    ∧ (assemblePoints (fun _ => (default : VsOut)) [5, 5]).2.count 5 ≠ 1
    ∧ (runFetches (fun _ => (default : VsOut)) freshVertexCache [5, 5]).calls.count 5
        = 1 := by
  refine ⟨by decide, by decide, ?_⟩
  rw [runFetches_calls_count]
  simp [freshVertexCache]

/-- C4 witness: the cache theorem applied to the stream `[7, 7, 9]` and
vertex index 7. -/
theorem vertexCache_invokes_once_witness :
    (7 ∈ [7, 7, 9])
    ∧ (runFetches (fun _ => (default : VsOut)) freshVertexCache [7, 7, 9]).calls.count 7
        = 1 :=
  ⟨by decide,
   (vertexCache_invokes_once_points_per_element (fun _ => (default : VsOut))
      [7, 7, 9] 7 (by decide)).1⟩

/-! ### Attribute interpolation (`interpolation.c`, `raster/triangle.c`) -/

/-- The per-element accumulation of the perspective branch of
`interpolateAttributes` in `interpolation.c`:
`for i < nVertices: sum += AV[i][e] * invW[i] * weights[i]; sum *= rIW`,
where `rIW` is the `reciprocalInterpolatedInvW` argument (the interpolated
`w`).  The vertex values, `invW` and `weights` lists share the length
`nVertices`. -/
def interpolateAttributesElem (vals invW weights : List F) (rIW : F) : F :=
  rIW * ((vals.zip (invW.zip weights)).foldl
    (fun acc p => acc + p.1 * p.2.1 * p.2.2) 0)

/-- The per-element accumulation of the affine branch of
`interpolateAttributes`: `for i < nVertices: sum += AV[i][e] * weights[i]`. -/
def interpolateAttributesElemAffine (vals weights : List F) : F :=
  (vals.zip weights).foldl (fun acc p => acc + p.1 * p.2) 0

/-- The `triangleInterpolatePosition` function from `raster/triangle.c`:
screen-linear barycentric sums for x, y, z, and
`w = 1 / (invW[0]*lambda[0] + invW[1]*lambda[1] + invW[2]*lambda[2])` in
perspective mode (`w = 1` in affine mode). -/
def triangleInterpolatePosition (v0 v1 v2 : VsOut) (invW : F × F × F)
    (lambda : F × F × F) (perspective : Bool) : F × F × F × F :=
  (v0.x * lambda.1 + v1.x * lambda.2.1 + v2.x * lambda.2.2,
   v0.y * lambda.1 + v1.y * lambda.2.1 + v2.y * lambda.2.2,
   v0.z * lambda.1 + v1.z * lambda.2.1 + v2.z * lambda.2.2,
   if perspective then
     1 / (invW.1 * lambda.1 + invW.2.1 * lambda.2.1 + invW.2.2 * lambda.2.2)
   else 1)

/-- C5: confirmed.  In perspective mode the interpolated `w` is
`1 / Σ invW[i]·lambda[i]` and every attribute element is
`w_interp · Σ attr[i]·invW[i]·lambda[i]`; consequently, for an attribute
taking values `a0, a1` at two vertices whose `invW` are `1/a0, 1/a1`
(an attribute varying linearly in eye space, such as eye depth), the value
at the screen-space midpoint of the edge (`lambda = (1/2, 1/2, 0)`) is the
harmonic mean `2·a0·a1/(a0+a1)`, and differs from the arithmetic mean
whenever `a0 ≠ a1`. -/
theorem perspective_interpolation_formulas (a0 a1 a2 w0 w1 w2 l0 l1 l2 rIW c u : F)
    (v0 v1 v2 : VsOut) :
    interpolateAttributesElem [a0, a1, a2] [w0, w1, w2] [l0, l1, l2] rIW
      = rIW * (a0 * w0 * l0 + a1 * w1 * l1 + a2 * w2 * l2)
    ∧ (triangleInterpolatePosition v0 v1 v2 (w0, w1, w2) (l0, l1, l2) true).2.2.2
      = 1 / (w0 * l0 + w1 * l1 + w2 * l2)
    ∧ (a0 ≠ 0 → a1 ≠ 0 → a0 + a1 ≠ 0 →
        interpolateAttributesElem [a0, a1, c] [1/a0, 1/a1, u] [1/2, 1/2, 0]
          ((triangleInterpolatePosition v0 v1 v2 (1/a0, 1/a1, u)
              (1/2, 1/2, 0) true).2.2.2)
          = 2 * a0 * a1 / (a0 + a1))
    ∧ (a0 ≠ 0 → a1 ≠ 0 → a0 + a1 ≠ 0 → a0 ≠ a1 →
        2 * a0 * a1 / (a0 + a1) ≠ (a0 + a1) / 2) := by
  refine ⟨?_, ?_, ?_, ?_⟩
  · simp only [interpolateAttributesElem, List.zip, List.zipWith, List.foldl]
    ring
  · simp [triangleInterpolatePosition]
  · intro h0 h1 hs
    have h2s : a0 * 2 + a1 * 2 ≠ 0 := fun h => hs (by linarith)
    simp only [interpolateAttributesElem, triangleInterpolatePosition,
      List.zip, List.zipWith, List.foldl]
    field_simp
    have hkey : (a0 * 2 + a1 * 2) * (a0 * 2 + a1 * 2)⁻¹ = 1 := mul_inv_cancel₀ h2s
    linear_combination 2 * a0 * a1 * hkey
  · intro h0 h1 hs hne heq
    rw [div_eq_div_iff hs (by norm_num : (2:F) ≠ 0)] at heq
    have hzero : (a0 - a1) ^ 2 = 0 := by ring_nf; ring_nf at heq; linarith
    exact hne (by nlinarith [hzero])

/-- C5 witness: the formulas applied at `a0 = 1, a1 = 3`: the midpoint value
is the harmonic mean `3/2`, not the arithmetic mean `2`. -/
theorem perspective_interpolation_formulas_witness :
    ((1 : F) ≠ 0 ∧ (3 : F) ≠ 0 ∧ (1 : F) + 3 ≠ 0 ∧ (1 : F) ≠ 3)
    ∧ interpolateAttributesElem [1, 3, 0] [1/1, 1/3, 0] [1/2, 1/2, 0]
        ((triangleInterpolatePosition default default default (1/1, 1/3, 0)
            (1/2, 1/2, 0) true).2.2.2)
        = 2 * 1 * 3 / (1 + 3)
    ∧ 2 * 1 * 3 / ((1 : F) + 3) ≠ ((1 : F) + 3) / 2 :=
  ⟨⟨by norm_num, by norm_num, by norm_num, by norm_num⟩,
   (perspective_interpolation_formulas 1 3 0 0 0 0 0 0 0 0 0 0
      default default default).2.2.1 (by norm_num) (by norm_num) (by norm_num),
   (perspective_interpolation_formulas 1 3 0 0 0 0 0 0 0 0 0 0
      default default default).2.2.2 (by norm_num) (by norm_num) (by norm_num)
      (by norm_num)⟩

/-! ### Vertex accesses of `interpolateAttributes` (`interpolation.c`) -/

/-- The vertex-pointer setup loop of `interpolateAttributes` in
`interpolation.c`: `for (int i = 0; i < 3; i++) AV[i] =
vertices[i].pOutputVariables + attrOffset` — the loop bound is the literal
`3` regardless of the `nVertices` parameter, and `AV` is a VLA of length
`nVertices`.  Element reads are modelled through `List.get?`; the result is
`none` as soon as the loop touches an index outside the `vertices` array. -/
def interpolateAttributesAVSetup (vertices : List VsOut) : Option (List (List F)) :=
  (List.range 3).foldl
    (fun acc i =>
      match acc, vertices[i]? with
      | some l, some v => some (l ++ [v.vary])
      | _, _ => none)
    (some [])

/-- C9: false of the code.  For every call with `nVertices = 2` — as made by
`lineInterpolateAttributes` and by `interpolateVertex` in the clipper — the
pointer-setup loop of `interpolateAttributes` runs `i = 0, 1, 2`, reading
`vertices[2]` past the caller's two-element array and writing `AV[2]` past
the end of the `nVertices`-sized VLA; with three vertices the same loop stays
in bounds.  (The interpolation sums themselves only use `AV[i]` for
`i < nVertices`, so the computed values are unaffected.) -/
theorem interpolateAttributes_reads_third_vertex (v0 v1 v2 : VsOut) :
    interpolateAttributesAVSetup [v0, v1] = none
    ∧ interpolateAttributesAVSetup [v0, v1, v2] = some [v0.vary, v1.vary, v2.vary] := by
  constructor
  · simp [interpolateAttributesAVSetup, List.range_succ]
  · simp [interpolateAttributesAVSetup, List.range_succ]

/-! ### Triangle rasterizer coverage (`raster/triangle.c`) -/

/-- A screen-space position (the xy part of `vec3d`). -/
structure Vec2 where
  x : F
  y : F
deriving Repr, DecidableEq, Inhabited

/-- The xy part of `vec3dSubtract`. -/
def vec2Sub (a b : Vec2) : Vec2 := ⟨a.x - b.x, a.y - b.y⟩

/-- The `signedAreaParallelogram` function from `raster/triangle.c`
(2D cross product). -/
def signedAreaParallelogram (a b : Vec2) : F := a.x * b.y - a.y * b.x

/-- The screen-space edge vectors of `setupTriangle`:
`edge[i] = ss[(i+1) % 3] - ss[i]`. -/
def triEdges (s0 s1 s2 : Vec2) : Vec2 × Vec2 × Vec2 :=
  (vec2Sub s1 s0, vec2Sub s2 s1, vec2Sub s0 s2)

/-- The doubled triangle area of `setupTriangle`:
`fabs(signedAreaParallelogram(&edge[0], &edge[2]))`. -/
def triAreaX2 (s0 s1 s2 : Vec2) : F :=
  |signedAreaParallelogram (triEdges s0 s1 s2).1 (triEdges s0 s1 s2).2.2|

/-- The `calculateBarycentrics` function from `raster/triangle.c`, evaluated
at a point: `lambda[0] = cross(BP, edge[1]) / areaX2`, `lambda[1] =
cross(CP, edge[2]) / areaX2`, `lambda[2] = cross(AP, edge[0]) / areaX2`. -/
def calculateBarycentrics (s0 s1 s2 p : Vec2) : F × F × F :=
  let e := triEdges s0 s1 s2
  let areaX2 := triAreaX2 s0 s1 s2
  (signedAreaParallelogram (vec2Sub p s1) e.2.1 / areaX2,
   signedAreaParallelogram (vec2Sub p s2) e.2.2 / areaX2,
   signedAreaParallelogram (vec2Sub p s0) e.1 / areaX2)

/-- The per-pixel barycentric increments of `calculateBarycentrics`:
`dldx = (edge[1].y, edge[2].y, edge[0].y) / areaX2`. -/
def dldx (s0 s1 s2 : Vec2) : F × F × F :=
  let e := triEdges s0 s1 s2
  let areaX2 := triAreaX2 s0 s1 s2
  (e.2.1.y / areaX2, e.2.2.y / areaX2, e.1.y / areaX2)

/-- The per-row barycentric increments of `calculateBarycentrics`:
`dldy = (-edge[1].x, -edge[2].x, -edge[0].x) / areaX2`. -/
def dldy (s0 s1 s2 : Vec2) : F × F × F :=
  let e := triEdges s0 s1 s2
  let areaX2 := triAreaX2 s0 s1 s2
  (-e.2.1.x / areaX2, -e.2.2.x / areaX2, -e.1.x / areaX2)

/-- Exactness of the incremental traversal: the `lambda += dldx`,
`lambda_row += dldy` updates of `rasterizeTriangle` reproduce
`calculateBarycentrics` evaluated directly at the displaced point, so
`pixelCovered` expressed through `calculateBarycentrics` is the per-pixel
test the traversal performs. -/
theorem calculateBarycentrics_incremental (s0 s1 s2 p : Vec2) (i j : F) :
    calculateBarycentrics s0 s1 s2 ⟨p.x + i, p.y + j⟩ =
      ((calculateBarycentrics s0 s1 s2 p).1
          + i * (dldx s0 s1 s2).1 + j * (dldy s0 s1 s2).1,
       (calculateBarycentrics s0 s1 s2 p).2.1
          + i * (dldx s0 s1 s2).2.1 + j * (dldy s0 s1 s2).2.1,
       (calculateBarycentrics s0 s1 s2 p).2.2
          + i * (dldx s0 s1 s2).2.2 + j * (dldy s0 s1 s2).2.2) := by
  simp only [calculateBarycentrics, dldx, dldy, triEdges, vec2Sub,
    signedAreaParallelogram, Prod.mk.injEq]
  refine ⟨by ring, by ring, by ring⟩

end SRP
